import Mathlib

/-!
Verification of the benchmark orchestration and regression-gating core of the
git-ai repository, as implemented in
`scripts/benchmarks/git/benchmark_modes_vs_main.py` and
`scripts/benchmarks/git/benchmark_nasty_modes_vs_main.py`.

Durations and medians are modelled as exact rationals (the Python code uses
binary floats); `round(x, 3)` is modelled by `round3` with Python's banker's
(half-to-even) rounding.  Aggregated summaries (`summarize_runs` output) are
modelled as association lists from scenario key to an association list from
variant key to the stored `median_ms`, which is the only field the slowdown
and margin-check computations read.  Python `for` loops with `continue` are
modelled as structural recursion over the iterated list.
-/

set_option maxHeartbeats 1000000

/-- Python `round(x)` for an exact rational: round half to even. -/
def pyRound (x : ℚ) : ℤ :=
  if x - ⌊x⌋ < 1 / 2 then ⌊x⌋
  else if (1 : ℚ) / 2 < x - ⌊x⌋ then ⌊x⌋ + 1
  else if ⌊x⌋ % 2 = 0 then ⌊x⌋ else ⌊x⌋ + 1

/-- Python `round(x, 3)`: round to three decimal places, half to even. -/
def round3 (x : ℚ) : ℚ := (pyRound (x * 1000) : ℚ) / 1000

/-- A per-scenario map from variant key to that variant's stored `median_ms`. -/
abbrev ByVariant := List (String × ℚ)

/-- The aggregated summary: scenario key to per-variant medians
(the `median_ms` field of `summarize_runs` output). -/
abbrev Summary := List (String × ByVariant)

/-- Python dict lookup (`d.get(k)` / `k in d`) on an association list. -/
def lookupA {α : Type} (k : String) (l : List (String × α)) : Option α :=
  (l.find? (fun p => p.1 == k)).map (fun p => p.2)

/-- The `MarginCheckResult` dataclass of `benchmark_modes_vs_main.py`. -/
structure MarginCheckResult where
  scenario : String
  variant : String
  baseline_ms : ℚ
  median_ms : ℚ
  allowed_ms : ℚ
  slowdown_pct : ℚ
  passed : Bool
deriving DecidableEq, Repr

/-- One `MarginCheckResult` as built in the loop body of
`compute_margin_checks` (lines 745-760 of `benchmark_modes_vs_main.py`):
stored fields are rounded to three decimals, `passed` compares the unrounded
median against the unrounded allowed ceiling. -/
def margin_check_row (scenario : String) (baseline : ℚ) (margin_pct : ℚ)
    (v : String) (median : ℚ) : MarginCheckResult :=
  { scenario := scenario
    variant := v
    baseline_ms := round3 baseline
    median_ms := round3 median
    allowed_ms := round3 (baseline * (1 + margin_pct / 100))
    slowdown_pct := round3 ((median - baseline) / baseline * 100)
    passed := decide (median ≤ baseline * (1 + margin_pct / 100)) }

/-- The inner `for variant in variants` loop of `compute_margin_checks`:
variants missing from the scenario's summary entry are skipped. -/
def margin_rows (scenario : String) (byv : ByVariant) (baseline : ℚ)
    (margin_pct : ℚ) : List String → List MarginCheckResult
  | [] => []
  | v :: rest =>
    (lookupA v byv).elim (margin_rows scenario byv baseline margin_pct rest)
      (fun median =>
        margin_check_row scenario baseline margin_pct v median ::
          margin_rows scenario byv baseline margin_pct rest)

/-- `compute_margin_checks` of `benchmark_modes_vs_main.py` (lines 729-761),
as recursion over the summary's scenario entries: a scenario contributes
checks only when its baseline median exists and is strictly positive. -/
def compute_margin_checks (baseline_key : String) (margin_pct : ℚ)
    (variants : List String) : Summary → List MarginCheckResult
  | [] => []
  | scv :: rest =>
    (lookupA baseline_key scv.2).elim
      (compute_margin_checks baseline_key margin_pct variants rest)
      (fun baseline =>
        if baseline ≤ 0 then compute_margin_checks baseline_key margin_pct variants rest
        else
          margin_rows scv.1 scv.2 baseline margin_pct variants ++
            compute_margin_checks baseline_key margin_pct variants rest)

/-- The inner `for variant, stats in by_variant.items()` loop of
`compute_slowdowns`: the baseline variant itself is skipped. -/
def slowdown_rows (baseline_key : String) (baseline : ℚ) :
    ByVariant → List (String × ℚ)
  | [] => []
  | vm :: rest =>
    if vm.1 == baseline_key then slowdown_rows baseline_key baseline rest
    else
      (vm.1, round3 ((vm.2 - baseline) / baseline * 100)) ::
        slowdown_rows baseline_key baseline rest

/-- `compute_slowdowns` of `benchmark_modes_vs_main.py` (lines 708-726):
a scenario contributes a slowdown entry only when its baseline median exists
and is strictly positive. -/
def compute_slowdowns (baseline_key : String) :
    Summary → List (String × List (String × ℚ))
  | [] => []
  | scv :: rest =>
    (lookupA baseline_key scv.2).elim (compute_slowdowns baseline_key rest)
      (fun baseline =>
        if baseline ≤ 0 then compute_slowdowns baseline_key rest
        else
          (scv.1, slowdown_rows baseline_key baseline scv.2) ::
            compute_slowdowns baseline_key rest)

/-- Every row emitted by the inner margin-check loop concerns the given
scenario, takes its median from the scenario's summary entry, and passes
exactly when that median is at most `baseline * (1 + margin_pct / 100)`. -/
theorem mem_margin_rows {sc : String} {byv : ByVariant} {baseline mp : ℚ} :
    ∀ (vs : List String) (c : MarginCheckResult), c ∈ margin_rows sc byv baseline mp vs →
      c.scenario = sc ∧ ∃ med, lookupA c.variant byv = some med ∧
        (c.passed = true ↔ med ≤ baseline * (1 + mp / 100)) := by
  intro vs
  induction vs with
  | nil => intro c hc; simp [margin_rows] at hc
  | cons v rest ih =>
    intro c hc
    simp only [margin_rows] at hc
    cases hv : lookupA v byv with
    | none =>
      rw [hv] at hc
      simp only [Option.elim_none] at hc
      exact ih c hc
    | some med =>
      rw [hv] at hc
      simp only [Option.elim_some] at hc
      rcases List.mem_cons.mp hc with h | h
      · subst h
        refine ⟨rfl, med, ?_, ?_⟩
        · simpa [margin_check_row] using hv
        · simp [margin_check_row, decide_eq_true_iff]
      · exact ih c h

/-- Demo summary for the margin-check boundary example: baseline median 100,
checked variants with medians 124, 125 and 126. -/
def c1Summary : Summary :=
  [("sc_demo", [("base_variant", 100), ("v124", 124), ("v125", 125), ("v126", 126)])]

/-- The checks produced for `c1Summary` at margin 25%. -/
def c1Checks : List MarginCheckResult :=
  compute_margin_checks ("base_variant") 25 [("v124"), ("v125"), ("v126")] c1Summary

/-- C1: for every aggregated summary and margin percentage `p ≥ 0`, a check
produced by `compute_margin_checks` comes from a scenario entry whose
baseline median `base` is strictly positive and a checked variant with
median `med`, and is marked passed iff `med ≤ base * (1 + p / 100)`
(equality passing); concretely, with baseline median 100 and margin 25%,
variant medians 124 and 125 pass and 126 fails. -/
theorem c1_margin_check_pass_iff :
    (∀ (summary : Summary) (bk : String) (p : ℚ) (vs : List String),
      0 ≤ p → ∀ c ∈ compute_margin_checks bk p vs summary,
        ∃ byv base med, (c.scenario, byv) ∈ summary ∧
          lookupA bk byv = some base ∧ 0 < base ∧
          lookupA c.variant byv = some med ∧
          (c.passed = true ↔ med ≤ base * (1 + p / 100))) ∧
    c1Checks.map (fun c => c.passed) = [true, true, false] := by
  constructor
  · intro summary bk p vs _
    induction summary with
    | nil => intro c hc; simp [compute_margin_checks] at hc
    | cons scv rest ih =>
      intro c hc
      simp only [compute_margin_checks] at hc
      cases hbk : lookupA bk scv.2 with
      | none =>
        rw [hbk] at hc
        simp only [Option.elim_none] at hc
        obtain ⟨byv, base, med, hm, h2, h3, h4, h5⟩ := ih c hc
        exact ⟨byv, base, med, List.mem_cons_of_mem _ hm, h2, h3, h4, h5⟩
      | some baseline =>
        rw [hbk] at hc
        simp only [Option.elim_some] at hc
        by_cases hle : baseline ≤ 0
        · rw [if_pos hle] at hc
          obtain ⟨byv, base, med, hm, h2, h3, h4, h5⟩ := ih c hc
          exact ⟨byv, base, med, List.mem_cons_of_mem _ hm, h2, h3, h4, h5⟩
        · rw [if_neg hle] at hc
          rcases List.mem_append.mp hc with h | h
          · obtain ⟨hsc, med, hmv, hiff⟩ := mem_margin_rows vs c h
            refine ⟨scv.2, baseline, med, ?_, hbk, lt_of_not_le hle, hmv, hiff⟩
            rw [hsc, Prod.mk.eta]
            exact List.mem_cons_self _ _
          · obtain ⟨byv, base, med, hm, h2, h3, h4, h5⟩ := ih c h
            exact ⟨byv, base, med, List.mem_cons_of_mem _ hm, h2, h3, h4, h5⟩
  · simp only [c1Checks, c1Summary, compute_margin_checks, margin_rows, margin_check_row]
    simp [lookupA]
    norm_num

/-- Witness for C1: the general part applied to the concrete demo check for
the variant with median 124. -/
theorem c1_margin_check_pass_iff_witness :
    ∃ byv base med,
      ((("sc_demo" : String)), byv) ∈ c1Summary ∧
      lookupA ("base_variant") byv = some base ∧ 0 < base ∧
      lookupA ("v124") byv = some med ∧
      ((true : Bool) = true ↔ med ≤ base * (1 + (25 : ℚ) / 100)) :=
  c1_margin_check_pass_iff.1 c1Summary ("base_variant") 25 [("v124"), ("v125"), ("v126")]
    (by norm_num)
    { scenario := "sc_demo", variant := "v124", baseline_ms := 100, median_ms := 124,
      allowed_ms := 125, slowdown_pct := 24, passed := true }
    (by
      simp only [c1Checks, c1Summary, compute_margin_checks, margin_rows, margin_check_row]
      simp [lookupA]
      norm_num [round3, pyRound])

/-- C2: an entry of `compute_slowdowns` or a `MarginCheckResult` of
`compute_margin_checks` is only produced for a scenario whose baseline median
exists in the summary and is strictly positive; consequently a scenario whose
baseline median is missing or non-positive (for every summary entry under
that scenario key) appears in neither output. -/
theorem c2_positive_baseline_only :
    (∀ (summary : Summary) (bk : String),
      ∀ e ∈ compute_slowdowns bk summary,
        ∃ byv base, (e.1, byv) ∈ summary ∧ lookupA bk byv = some base ∧ 0 < base) ∧
    (∀ (summary : Summary) (bk : String) (p : ℚ) (vs : List String),
      ∀ c ∈ compute_margin_checks bk p vs summary,
        ∃ byv base, (c.scenario, byv) ∈ summary ∧ lookupA bk byv = some base ∧ 0 < base) ∧
    (∀ (summary : Summary) (bk sc : String) (p : ℚ) (vs : List String),
      (∀ byv, (sc, byv) ∈ summary → ∀ b, lookupA bk byv = some b → b ≤ 0) →
      (∀ e ∈ compute_slowdowns bk summary, e.1 ≠ sc) ∧
      (∀ c ∈ compute_margin_checks bk p vs summary, c.scenario ≠ sc)) := by
  have hslow : ∀ (summary : Summary) (bk : String),
      ∀ e ∈ compute_slowdowns bk summary,
        ∃ byv base, (e.1, byv) ∈ summary ∧ lookupA bk byv = some base ∧ 0 < base := by
    intro summary bk
    induction summary with
    | nil => intro e he; simp [compute_slowdowns] at he
    | cons scv rest ih =>
      intro e he
      simp only [compute_slowdowns] at he
      cases hbk : lookupA bk scv.2 with
      | none =>
        rw [hbk] at he
        simp only [Option.elim_none] at he
        obtain ⟨byv, base, hm, h2, h3⟩ := ih e he
        exact ⟨byv, base, List.mem_cons_of_mem _ hm, h2, h3⟩
      | some baseline =>
        rw [hbk] at he
        simp only [Option.elim_some] at he
        by_cases hle : baseline ≤ 0
        · rw [if_pos hle] at he
          obtain ⟨byv, base, hm, h2, h3⟩ := ih e he
          exact ⟨byv, base, List.mem_cons_of_mem _ hm, h2, h3⟩
        · rw [if_neg hle] at he
          rcases List.mem_cons.mp he with h | h
          · refine ⟨scv.2, baseline, ?_, hbk, lt_of_not_le hle⟩
            rw [h]
            simp only [Prod.mk.eta]
            exact List.mem_cons_self _ _
          · obtain ⟨byv, base, hm, h2, h3⟩ := ih e h
            exact ⟨byv, base, List.mem_cons_of_mem _ hm, h2, h3⟩
  have hmargin : ∀ (summary : Summary) (bk : String) (p : ℚ) (vs : List String),
      ∀ c ∈ compute_margin_checks bk p vs summary,
        ∃ byv base, (c.scenario, byv) ∈ summary ∧ lookupA bk byv = some base ∧ 0 < base := by
    intro summary bk p vs
    induction summary with
    | nil => intro c hc; simp [compute_margin_checks] at hc
    | cons scv rest ih =>
      intro c hc
      simp only [compute_margin_checks] at hc
      cases hbk : lookupA bk scv.2 with
      | none =>
        rw [hbk] at hc
        simp only [Option.elim_none] at hc
        obtain ⟨byv, base, hm, h2, h3⟩ := ih c hc
        exact ⟨byv, base, List.mem_cons_of_mem _ hm, h2, h3⟩
      | some baseline =>
        rw [hbk] at hc
        simp only [Option.elim_some] at hc
        by_cases hle : baseline ≤ 0
        · rw [if_pos hle] at hc
          obtain ⟨byv, base, hm, h2, h3⟩ := ih c hc
          exact ⟨byv, base, List.mem_cons_of_mem _ hm, h2, h3⟩
        · rw [if_neg hle] at hc
          rcases List.mem_append.mp hc with h | h
          · obtain ⟨hsc, _, _, _⟩ := mem_margin_rows vs c h
            refine ⟨scv.2, baseline, ?_, hbk, lt_of_not_le hle⟩
            rw [hsc, Prod.mk.eta]
            exact List.mem_cons_self _ _
          · obtain ⟨byv, base, hm, h2, h3⟩ := ih c h
            exact ⟨byv, base, List.mem_cons_of_mem _ hm, h2, h3⟩
  refine ⟨hslow, hmargin, ?_⟩
  intro summary bk sc p vs hall
  constructor
  · intro e he heq
    obtain ⟨byv, base, hmem, hbk, hpos⟩ := hslow summary bk e he
    rw [heq] at hmem
    exact absurd (hall byv hmem base hbk) (not_le.mpr hpos)
  · intro c hc heq
    obtain ⟨byv, base, hmem, hbk, hpos⟩ := hmargin summary bk p vs c hc
    rw [heq] at hmem
    exact absurd (hall byv hmem base hbk) (not_le.mpr hpos)

/-- Summary with a zero baseline median, for the C2 witness. -/
def c2Summary : Summary := [("sc_zero", [("base_variant", 0), ("v124", 124)])]

/-- Witness for C2: with a zero baseline median, no slowdown entry and no
margin check is produced for the scenario. -/
theorem c2_positive_baseline_only_witness :
    (∀ e ∈ compute_slowdowns ("base_variant") c2Summary, e.1 ≠ ("sc_zero" : String)) ∧
    (∀ c ∈ compute_margin_checks ("base_variant") 25 [("v124")] c2Summary,
      c.scenario ≠ ("sc_zero" : String)) :=
  c2_positive_baseline_only.2.2 c2Summary ("base_variant") ("sc_zero") 25 [("v124")]
    (by
      intro byv hmem b hb
      simp only [c2Summary, List.mem_singleton, Prod.mk.injEq, true_and] at hmem
      subst hmem
      simp [lookupA] at hb
      simp [← hb])

/-- `statistics.median(ordered)` as used by `summarize_runs` (line 693 of
`benchmark_modes_vs_main.py`): sort the samples, take the middle element for
an odd count, the arithmetic average of the two middle elements for an even
count; `statistics.median` raises on an empty sample list (`none` here). -/
def pymedian (data : List ℚ) : Option ℚ :=
  let s := List.insertionSort (fun a b : ℚ => a ≤ b) data
  let n := s.length
  if n = 0 then none
  else if n % 2 = 1 then some (s.getD (n / 2) 0)
  else some ((s.getD (n / 2 - 1) 0 + s.getD (n / 2) 0) / 2)

/-- The `median_ms` field stored by `summarize_runs` (line 698):
`round(statistics.median(ordered), 3)`. -/
def summarize_median (samples : List ℚ) : Option ℚ :=
  (pymedian samples).map round3

/-- Sorting with `insertionSort` is invariant under permutation of the
input: both sides sort to the same sorted list. -/
theorem insertionSort_eq_of_perm {l l' : List ℚ} (h : l.Perm l') :
    List.insertionSort (fun a b : ℚ => a ≤ b) l =
      List.insertionSort (fun a b : ℚ => a ≤ b) l' :=
  List.eq_of_perm_of_sorted
    (((List.perm_insertionSort _ l).trans h).trans (List.perm_insertionSort _ l').symm)
    (List.sorted_insertionSort _ l) (List.sorted_insertionSort _ l')

/-- C5: the median computed by `summarize_runs` is invariant under every
permutation of the sample list (both the raw `statistics.median` and the
rounded stored field), equals the middle element of the sorted list for an
odd sample count and the average of the two middle elements for an even
count, and satisfies median([3,1,2]) = median([1,2,3]) = 2 and
median([1,2,3,4]) = 5/2. -/
theorem c5_median_properties :
    (∀ l l' : List ℚ, l.Perm l' → pymedian l = pymedian l') ∧
    (∀ l l' : List ℚ, l.Perm l' → summarize_median l = summarize_median l') ∧
    (∀ l : List ℚ, l.Sorted (· ≤ ·) → l.length % 2 = 1 →
      pymedian l = some (l.getD (l.length / 2) 0)) ∧
    (∀ l : List ℚ, l ≠ [] → l.Sorted (· ≤ ·) → l.length % 2 = 0 →
      pymedian l = some ((l.getD (l.length / 2 - 1) 0 + l.getD (l.length / 2) 0) / 2)) ∧
    pymedian [3, 1, 2] = some 2 ∧ pymedian [1, 2, 3] = some 2 ∧
    pymedian [1, 2, 3, 4] = some (5 / 2) := by
  have hperm : ∀ l l' : List ℚ, l.Perm l' → pymedian l = pymedian l' := by
    intro l l' h
    simp only [pymedian, insertionSort_eq_of_perm h]
  refine ⟨hperm, ?_, ?_, ?_, ?_, ?_, ?_⟩
  · intro l l' h
    simp only [summarize_median, hperm l l' h]
  · intro l hs hodd
    have hne : l.length ≠ 0 := by omega
    have hsort : List.insertionSort (fun a b : ℚ => a ≤ b) l = l :=
      List.Sorted.insertionSort_eq hs
    simp only [pymedian, hsort]
    rw [if_neg hne, if_pos hodd]
  · intro l hne hs hmod
    have hlen : l.length ≠ 0 := by
      intro h0
      exact hne (List.length_eq_zero.mp h0)
    have hsort : List.insertionSort (fun a b : ℚ => a ≤ b) l = l :=
      List.Sorted.insertionSort_eq hs
    have hodd : ¬ l.length % 2 = 1 := by omega
    simp only [pymedian, hsort]
    rw [if_neg hlen, if_neg hodd]
  · norm_num [pymedian, List.insertionSort, List.orderedInsert]
  · norm_num [pymedian, List.insertionSort, List.orderedInsert]
  · norm_num [pymedian, List.insertionSort, List.orderedInsert]

/-- Witness for C5: the permutation part applied to the claim's example
lists [3,1,2] and [1,2,3]. -/
theorem c5_median_properties_witness :
    pymedian [3, 1, 2] = pymedian [1, 2, 3] :=
  c5_median_properties.1 [3, 1, 2] [1, 2, 3]
    ((List.Perm.swap 1 3 [2]).trans (List.Perm.cons 1 (List.Perm.swap 2 3 [])))

/-- The exit decision at the end of `main()` of `benchmark_modes_vs_main.py`
(lines 1146-1159): return 2 when `--enforce-margin` was given and at least
one margin check failed, otherwise return 0. -/
def main_exit_code (enforce_margin : Bool) (margin_checks : List MarginCheckResult) : Nat :=
  if enforce_margin && margin_checks.any (fun c => !c.passed) then 2 else 0

/-- The `__main__` guard (lines 1169-1174): the process exits with `main()`'s
return value, except that a `BenchmarkError` exits with status 1. -/
def script_exit_code : Except String Nat → Nat
  | Except.ok code => code
  | Except.error _ => 1

/-- The margin-check table of `render_report` (lines 870-875): one row per
check, sorted by (scenario, variant), rendered whether or not enforcement
was requested. -/
def report_margin_table (margin_checks : List MarginCheckResult) :
    List (String × String × Bool) :=
  (List.insertionSort
    (fun a b : MarginCheckResult =>
      a.scenario < b.scenario ∨ (a.scenario = b.scenario ∧ a.variant ≤ b.variant))
    margin_checks).map (fun c => (c.scenario, c.variant, c.passed))

/-- C3: the process exit status is 0 whenever enforcement is not requested or
every margin check passes; with the enforcement flag and at least one failed
check it is 2, distinct from the generic fatal-error status 1 (and from 0);
a `BenchmarkError` exits with 1; and every margin check, failed or not,
appears in the report's pass/fail table independently of the flag. -/
theorem c3_exit_status :
    (∀ (enforce : Bool) (checks : List MarginCheckResult),
      (enforce = false ∨ ∀ c ∈ checks, c.passed = true) →
        main_exit_code enforce checks = 0) ∧
    (∀ (enforce : Bool) (checks : List MarginCheckResult),
      enforce = true → (∃ c ∈ checks, c.passed = false) →
        main_exit_code enforce checks = 2 ∧
        main_exit_code enforce checks ≠ 1 ∧ main_exit_code enforce checks ≠ 0) ∧
    (∀ msg : String, script_exit_code (Except.error msg) = 1) ∧
    (∀ n : Nat, script_exit_code (Except.ok n) = n) ∧
    (∀ (checks : List MarginCheckResult) (c : MarginCheckResult), c ∈ checks →
      (c.scenario, c.variant, c.passed) ∈ report_margin_table checks) := by
  refine ⟨?_, ?_, ?_, ?_, ?_⟩
  · intro enforce checks h
    rcases h with h | h
    · simp [main_exit_code, h]
    · have hany : checks.any (fun c => !c.passed) = false := by
        rw [List.any_eq_false]
        intro c hc
        simp [h c hc]
      simp [main_exit_code, hany]
  · intro enforce checks he hex
    obtain ⟨c, hc, hfail⟩ := hex
    have hany : checks.any (fun c => !c.passed) = true := by
      rw [List.any_eq_true]
      exact ⟨c, hc, by simp [hfail]⟩
    refine ⟨?_, ?_, ?_⟩ <;> simp [main_exit_code, he, hany]
  · intro msg; rfl
  · intro n; rfl
  · intro checks c hc
    have hmem : c ∈ List.insertionSort
        (fun a b : MarginCheckResult =>
          a.scenario < b.scenario ∨ (a.scenario = b.scenario ∧ a.variant ≤ b.variant))
        checks :=
      (List.perm_insertionSort _ checks).mem_iff.mpr hc
    exact List.mem_map_of_mem _ hmem

/-- Witness for C3: the zero-exit part applied with enforcement off and an
empty check list. -/
theorem c3_exit_status_witness : main_exit_code false [] = 0 :=
  c3_exit_status.1 false [] (Or.inl rfl)

/-- The observable outcome of one `subprocess.run` call: argument list,
working directory, exit status and captured output. -/
structure ProcResult where
  cmd : List String
  cwd : String
  returncode : Int
  stdout : String
  stderr : String
deriving DecidableEq, Repr

/-- The `BenchmarkError` message raised by `run_command` (lines 140-148 of
`benchmark_modes_vs_main.py`, lines 108-116 of
`benchmark_nasty_modes_vs_main.py`): it carries the joined command line, the
working directory, the exit code and the captured stdout and stderr. -/
def command_failed_message (p : ProcResult) : String :=
  "Command failed\n" ++
    "cmd: " ++ String.intercalate " " p.cmd ++ "\n" ++
    "cwd: " ++ p.cwd ++ "\n" ++
    "exit: " ++ toString p.returncode ++ "\n" ++
    "stdout:\n" ++ p.stdout ++ "\n" ++
    "stderr:\n" ++ p.stderr ++ "\n"

/-- `run_cmd` of both benchmark scripts (renamed here because `run_cmd` is a
Lean command): return the completed process when
the exit status is 0, otherwise raise `BenchmarkError` with the full
diagnostic message. -/
def run_command (p : ProcResult) : Except String ProcResult :=
  if p.returncode ≠ 0 then Except.error (command_failed_message p)
  else Except.ok p

/-- The measurement loop's interaction with `run_command`: each command result is
collected as a sample only if `run_command` succeeds; the first failure
propagates and aborts the whole run. -/
def run_samples : List ProcResult → Except String (List ProcResult)
  | [] => Except.ok []
  | p :: rest =>
    (run_command p).bind (fun r => (run_samples rest).map (fun rs => r :: rs))

/-- C7: `run_command` returns the completed process iff the spawned command exits
with status 0; for every non-zero exit status it raises a fatal
`BenchmarkError` whose message carries the full command line, working
directory, exit code and captured stdout/stderr; consequently a failed
command is never recorded as a sample and a single failure aborts the entire
run with that error. -/
theorem c7_run_command_fatal :
    (∀ p : ProcResult, run_command p = Except.ok p ↔ p.returncode = 0) ∧
    (∀ p : ProcResult, p.returncode ≠ 0 →
      run_command p = Except.error (command_failed_message p)) ∧
    (∀ ps : List ProcResult, (∀ p ∈ ps, p.returncode = 0) →
      run_samples ps = Except.ok ps) ∧
    (∀ ps : List ProcResult, (∃ p ∈ ps, p.returncode ≠ 0) →
      ∃ msg, run_samples ps = Except.error msg) := by
  have hok : ∀ p : ProcResult, p.returncode = 0 → run_command p = Except.ok p := by
    intro p h
    simp [run_command, h]
  have herr : ∀ p : ProcResult, p.returncode ≠ 0 →
      run_command p = Except.error (command_failed_message p) := by
    intro p h
    simp [run_command, h]
  refine ⟨?_, herr, ?_, ?_⟩
  · intro p
    constructor
    · intro h
      by_contra hne
      rw [herr p hne] at h
      exact Except.noConfusion h
    · exact hok p
  · intro ps
    induction ps with
    | nil => intro _; rfl
    | cons p rest ih =>
      intro h
      have hp : p.returncode = 0 := h p (List.mem_cons_self _ _)
      have hrest : run_samples rest = Except.ok rest :=
        ih (fun q hq => h q (List.mem_cons_of_mem _ hq))
      simp [run_samples, hok p hp, hrest, Except.bind, Except.map]
  · intro ps
    induction ps with
    | nil => intro h; simp at h
    | cons p rest ih =>
      intro h
      by_cases hp : p.returncode = 0
      · have hrest : ∃ q ∈ rest, q.returncode ≠ 0 := by
          rcases h with ⟨q, hq, hqc⟩
          rcases List.mem_cons.mp hq with rfl | hq'
          · exact absurd hp hqc
          · exact ⟨q, hq', hqc⟩
        obtain ⟨msg, hmsg⟩ := ih hrest
        refine ⟨msg, ?_⟩
        simp [run_samples, hok p hp, hmsg, Except.bind, Except.map]
      · refine ⟨command_failed_message p, ?_⟩
        simp [run_samples, herr p hp, Except.bind]

/-- Witness for C7: a command exiting with status 1 aborts the collected run
with a `BenchmarkError`. -/
theorem c7_run_command_fatal_witness :
    ∃ msg, run_samples
      [{ cmd := ["git", "status"], cwd := "/sandbox/repo", returncode := 1,
         stdout := "", stderr := "boom" }] = Except.error msg :=
  c7_run_command_fatal.2.2.2
    [{ cmd := ["git", "status"], cwd := "/sandbox/repo", returncode := 1,
       stdout := "", stderr := "boom" }]
    ⟨{ cmd := ["git", "status"], cwd := "/sandbox/repo", returncode := 1,
       stdout := "", stderr := "boom" }, by simp, by norm_num⟩

/-- Key and complexity of one `Scenario` of the `SCENARIOS` registry
(lines 623-680 of `benchmark_modes_vs_main.py`). -/
structure ScenarioDesc where
  key : String
  complexity : String
deriving DecidableEq, Repr

/-- The eight scenarios of the `SCENARIOS` registry, in source order. -/
def SCENARIOS_desc : List ScenarioDesc :=
  [⟨"commit_human", "basic"⟩,
   ⟨"checkpoint_commit_ai", "basic"⟩,
   ⟨"reset_mixed_head6", "basic"⟩,
   ⟨"stash_roundtrip", "basic"⟩,
   ⟨"cherry_pick_three", "basic"⟩,
   ⟨"rebase_linear", "complex"⟩,
   ⟨"rebase_rebase_merges", "complex"⟩,
   ⟨"squash_merge_commit", "complex"⟩]

/-- The four variant keys built in `main()` (lines 1028-1033). -/
def variant_keys : List String :=
  ["main_wrapper", "current_wrapper", "current_hooks", "current_both"]

/-- Repetition count per scenario: `--iterations-basic` for basic scenarios,
`--iterations-complex` otherwise (lines 1046-1050). -/
def iterations_for (nb nc : Nat) (s : ScenarioDesc) : Nat :=
  if s.complexity == "basic" then nb else nc

/-- The `RunResult` dataclass: one timed sample. -/
structure RunResult where
  scenario : String
  complexity : String
  variant : String
  run_index : Nat
  duration_ms : ℚ
deriving DecidableEq, Repr

/-- The repetition loop for one (scenario, variant) cell
(lines 1063-1093): run indices go from 1 to the iteration count; the measured
duration is an oracle `dur` of the cell and repetition. -/
def cell_runs (s : ScenarioDesc) (v : String) (n : Nat)
    (dur : String → String → Nat → ℚ) : List RunResult :=
  (List.range n).map (fun k =>
    { scenario := s.key, complexity := s.complexity, variant := v,
      run_index := k + 1, duration_ms := dur s.key v (k + 1) })

/-- The `for variant in variants` loop of `main()` for one scenario. -/
def variant_runs (s : ScenarioDesc) (vks : List String) (n : Nat)
    (dur : String → String → Nat → ℚ) : List RunResult :=
  vks.flatMap (fun v => cell_runs s v n dur)

/-- `raw_results` as collected by the matrix loop of `main()`
(lines 1045-1096): the full scenario × variant × repetition cross-product in
source order. -/
def raw_results (nb nc : Nat) (dur : String → String → Nat → ℚ) : List RunResult :=
  SCENARIOS_desc.flatMap
    (fun s => variant_runs s variant_keys (iterations_for nb nc s) dur)

/-- Filtering a list by a constant keeps everything or nothing. -/
theorem filter_const {α : Type} (b : Bool) (l : List α) :
    l.filter (fun _ => b) = if b then l else [] := by
  induction l with
  | nil => cases b <;> simp
  | cons a rest ih => cases b <;> simp_all

/-- Filtering one cell by a (scenario, variant) pair keeps the whole cell
when both keys match and nothing otherwise. -/
theorem filter_cell_runs (s : ScenarioDesc) (v' : String) (n : Nat)
    (dur : String → String → Nat → ℚ) (sk v : String) :
    (cell_runs s v' n dur).filter (fun r => r.scenario == sk && r.variant == v) =
      if s.key == sk && v' == v then cell_runs s v' n dur else [] := by
  unfold cell_runs
  rw [List.filter_map]
  have hcomp :
      ((fun r : RunResult => r.scenario == sk && r.variant == v) ∘
        (fun k : Nat =>
          ({ scenario := s.key, complexity := s.complexity, variant := v',
             run_index := k + 1, duration_ms := dur s.key v' (k + 1) } : RunResult))) =
        (fun _ : Nat => s.key == sk && v' == v) := rfl
  rw [hcomp, filter_const]
  by_cases h : (s.key == sk && v' == v) = true
  · rw [if_pos h, if_pos h]
  · rw [if_neg h, if_neg h, List.map_nil]

/-- A variant absent from the key list contributes nothing to the filtered
block. -/
theorem filter_variant_runs_not_mem (s : ScenarioDesc) (n : Nat)
    (dur : String → String → Nat → ℚ) (sk v : String) :
    ∀ vks : List String, v ∉ vks →
      (variant_runs s vks n dur).filter
          (fun r => r.scenario == sk && r.variant == v) = [] := by
  intro vks
  induction vks with
  | nil => intro _; rfl
  | cons w rest ih =>
    intro hv
    have hw : w ≠ v := fun h => hv (h ▸ List.mem_cons_self _ _)
    have hrest : v ∉ rest := fun h => hv (List.mem_cons_of_mem _ h)
    unfold variant_runs
    rw [List.flatMap_cons, List.filter_append, filter_cell_runs]
    have hbeq : (w == v) = false := beq_eq_false_iff_ne.mpr hw
    rw [hbeq]
    simp only [Bool.and_false, if_false, List.nil_append]
    exact ih hrest

/-- Filtering one scenario block by (scenario key, variant) yields exactly
that variant's cell when the scenario matches, for a duplicate-free variant
list containing the variant. -/
theorem filter_variant_runs (s : ScenarioDesc) (n : Nat)
    (dur : String → String → Nat → ℚ) (sk v : String) :
    ∀ vks : List String, vks.Nodup → v ∈ vks →
      (variant_runs s vks n dur).filter
          (fun r => r.scenario == sk && r.variant == v) =
        if s.key == sk then cell_runs s v n dur else [] := by
  intro vks
  induction vks with
  | nil => intro _ hv; cases hv
  | cons w rest ih =>
    intro hnd hv
    have hw_notin : w ∉ rest := (List.nodup_cons.mp hnd).1
    have hnd_rest : rest.Nodup := (List.nodup_cons.mp hnd).2
    unfold variant_runs
    rw [List.flatMap_cons, List.filter_append, filter_cell_runs]
    rcases List.mem_cons.mp hv with rfl | hv_rest
    · have hrest : (variant_runs s rest n dur).filter
          (fun r => r.scenario == sk && r.variant == v) = [] :=
        filter_variant_runs_not_mem s n dur sk v rest hw_notin
      unfold variant_runs at hrest
      rw [hrest, beq_self_eq_true]
      by_cases hs : (s.key == sk) = true
      · rw [hs]
        simp
      · rw [if_neg hs]
        simp only [Bool.and_true]
        rw [if_neg hs, List.nil_append]
    · have hw : w ≠ v := fun h => hw_notin (h ▸ hv_rest)
      have hbeq : (w == v) = false := beq_eq_false_iff_ne.mpr hw
      rw [hbeq]
      simp only [Bool.and_false, if_false, List.nil_append]
      exact ih hnd_rest hv_rest

/-- A scenario key absent from the scenario list contributes nothing to the
filtered matrix. -/
theorem filter_scenario_blocks_not_mem (nb nc : Nat)
    (dur : String → String → Nat → ℚ) (sk v : String) (hv : v ∈ variant_keys) :
    ∀ scens : List ScenarioDesc, sk ∉ scens.map (fun s => s.key) →
      ((scens.flatMap
          (fun s => variant_runs s variant_keys (iterations_for nb nc s) dur)).filter
        (fun r => r.scenario == sk && r.variant == v)) = [] := by
  intro scens
  induction scens with
  | nil => intro _; rfl
  | cons s0 rest ih =>
    intro hsk
    have hs0 : s0.key ≠ sk := by
      intro h
      exact hsk (h ▸ List.mem_map_of_mem _ (List.mem_cons_self _ _))
    have hrest : sk ∉ rest.map (fun s => s.key) := by
      intro h
      exact hsk (List.mem_cons_of_mem _ h)
    rw [List.flatMap_cons, List.filter_append]
    rw [filter_variant_runs s0 (iterations_for nb nc s0) dur sk v variant_keys
      (by decide) hv]
    rw [if_neg (by simpa using hs0), List.nil_append]
    exact ih hrest

/-- Filtering the matrix by a (scenario, variant) pair from the registries
yields exactly that cell, provided scenario keys are duplicate-free. -/
theorem filter_raw_results_aux (nb nc : Nat)
    (dur : String → String → Nat → ℚ) (s : ScenarioDesc) (v : String)
    (hv : v ∈ variant_keys) :
    ∀ scens : List ScenarioDesc, (scens.map (fun x => x.key)).Nodup → s ∈ scens →
      ((scens.flatMap
          (fun x => variant_runs x variant_keys (iterations_for nb nc x) dur)).filter
        (fun r => r.scenario == s.key && r.variant == v)) =
        cell_runs s v (iterations_for nb nc s) dur := by
  intro scens
  induction scens with
  | nil => intro _ hs; cases hs
  | cons s0 rest ih =>
    intro hnd hs
    have hs0_notin : s0.key ∉ rest.map (fun x => x.key) :=
      (List.nodup_cons.mp (by simpa using hnd)).1
    have hnd_rest : (rest.map (fun x => x.key)).Nodup :=
      (List.nodup_cons.mp (by simpa using hnd)).2
    rw [List.flatMap_cons, List.filter_append]
    rcases List.mem_cons.mp hs with rfl | hs_rest
    · rw [filter_variant_runs s (iterations_for nb nc s) dur s.key v variant_keys
        (by decide) hv]
      rw [if_pos (beq_self_eq_true _), filter_scenario_blocks_not_mem nb nc dur s.key v hv
        rest hs0_notin, List.append_nil]
    · have hne : s0.key ≠ s.key := by
        intro h
        exact hs0_notin (h ▸ List.mem_map_of_mem _ hs_rest)
      rw [filter_variant_runs s0 (iterations_for nb nc s0) dur s.key v variant_keys
        (by decide) hv]
      rw [if_neg (by simpa using hne), List.nil_append]
      exact ih hnd_rest hs_rest

/-- C6: after a matrix run completes without a fatal error, with iteration
counts `nb ≥ 1` (basic) and `nc ≥ 1` (complex), the raw results restricted to
any (scenario, variant) pair of the registries are exactly the `N` samples
with run indices 1..N, where `N` is the scenario's configured repetition
count — no duplicate and no missing triple; and every raw result belongs to
a registered scenario and variant with a run index in 1..N. -/
theorem c6_matrix_exact_repetitions :
    (∀ (nb nc : Nat) (dur : String → String → Nat → ℚ),
      1 ≤ nb → 1 ≤ nc →
      ∀ s ∈ SCENARIOS_desc, ∀ v ∈ variant_keys,
        (raw_results nb nc dur).filter
            (fun r => r.scenario == s.key && r.variant == v) =
          (List.range (iterations_for nb nc s)).map (fun k =>
            { scenario := s.key, complexity := s.complexity, variant := v,
              run_index := k + 1, duration_ms := dur s.key v (k + 1) })) ∧
    (∀ (nb nc : Nat) (dur : String → String → Nat → ℚ),
      ∀ r ∈ raw_results nb nc dur,
        ∃ s ∈ SCENARIOS_desc, r.scenario = s.key ∧ r.complexity = s.complexity ∧
          r.variant ∈ variant_keys ∧
          1 ≤ r.run_index ∧ r.run_index ≤ iterations_for nb nc s) := by
  constructor
  · intro nb nc dur _ _ s hs v hv
    exact filter_raw_results_aux nb nc dur s v hv SCENARIOS_desc (by decide) hs
  · intro nb nc dur r hr
    unfold raw_results at hr
    rw [List.mem_flatMap] at hr
    obtain ⟨s, hs, hr⟩ := hr
    unfold variant_runs at hr
    rw [List.mem_flatMap] at hr
    obtain ⟨v, hv, hr⟩ := hr
    unfold cell_runs at hr
    rw [List.mem_map] at hr
    obtain ⟨k, hk, hr⟩ := hr
    rw [List.mem_range] at hk
    subst hr
    refine ⟨s, hs, rfl, rfl, hv, ?_, ?_⟩
    · simp
    · simpa using hk

/-- Witness for C6: with one iteration of each kind, the first scenario and
variant produce exactly the single sample with run index 1. -/
theorem c6_matrix_exact_repetitions_witness :
    (raw_results 1 1 (fun _ _ _ => 0)).filter
        (fun r => r.scenario == (⟨"commit_human", "basic"⟩ : ScenarioDesc).key &&
          r.variant == ("main_wrapper" : String)) =
      (List.range (iterations_for 1 1 (⟨"commit_human", "basic"⟩ : ScenarioDesc))).map
        (fun k =>
          { scenario := (⟨"commit_human", "basic"⟩ : ScenarioDesc).key,
            complexity := (⟨"commit_human", "basic"⟩ : ScenarioDesc).complexity,
            variant := ("main_wrapper" : String),
            run_index := k + 1, duration_ms := (fun _ _ _ => (0 : ℚ)) "commit_human" "main_wrapper" (k + 1) }) :=
  c6_matrix_exact_repetitions.1 1 1 (fun _ _ _ => 0) (le_refl 1) (le_refl 1)
    (⟨"commit_human", "basic"⟩ : ScenarioDesc) (by simp [SCENARIOS_desc])
    ("main_wrapper") (by simp [variant_keys])

/-- `geometric_mean` of both benchmark scripts (lines 764-767 of
`benchmark_modes_vs_main.py`, lines 363-366 of
`benchmark_nasty_modes_vs_main.py`): `exp(sum(log v) / len(values))`, and
1.0 for the empty list. -/
noncomputable def geometric_mean (values : List ℝ) : ℝ :=
  if values = [] then 1
  else Real.exp ((values.map Real.log).sum / values.length)

/-- Per-scenario ratio of a (baseline median, variant median) pair:
`med / base`. -/
noncomputable def ratio_list (pairs : List (ℝ × ℝ)) : List ℝ :=
  pairs.map (fun p => p.2 / p.1)

/-- Re-expressing every scenario's two medians in a per-scenario time unit:
scenario `i`'s baseline and variant medians are both multiplied by
`units[i]`. -/
noncomputable def scale_pairs (units : List ℝ) (pairs : List (ℝ × ℝ)) : List (ℝ × ℝ) :=
  List.zipWith (fun c p => (c * p.1, c * p.2)) units pairs

/-- C8: the geometric mean of a list of ratios that are all exactly 1.0 is
1.0 (in particular for [1.0, 1.0, 1.0]), and rescaling every scenario's
baseline and variant medians by the same strictly positive per-scenario
constant leaves every per-scenario ratio, and hence the aggregate geometric
mean, unchanged. -/
theorem c8_geometric_mean_unit_invariance :
    (∀ n : Nat, geometric_mean (List.replicate n 1) = 1) ∧
    geometric_mean [1, 1, 1] = 1 ∧
    (∀ (units : List ℝ) (pairs : List (ℝ × ℝ)),
      units.length = pairs.length → (∀ c ∈ units, 0 < c) →
      ratio_list (scale_pairs units pairs) = ratio_list pairs ∧
      geometric_mean (ratio_list (scale_pairs units pairs)) =
        geometric_mean (ratio_list pairs)) := by
  have hrep : ∀ n : Nat, geometric_mean (List.replicate n 1) = 1 := by
    intro n
    cases n with
    | zero => simp [geometric_mean]
    | succ m =>
      have hne : List.replicate (m + 1) (1 : ℝ) ≠ [] := by simp
      rw [geometric_mean, if_neg hne, List.map_replicate, Real.log_one,
        List.sum_replicate, smul_zero, zero_div, Real.exp_zero]
  have hscale : ∀ (units : List ℝ) (pairs : List (ℝ × ℝ)),
      units.length = pairs.length → (∀ c ∈ units, 0 < c) →
      ratio_list (scale_pairs units pairs) = ratio_list pairs := by
    intro units
    induction units with
    | nil =>
      intro pairs hlen _
      have hpairs : pairs = [] := List.length_eq_zero.mp hlen.symm
      subst hpairs
      rfl
    | cons c crest ih =>
      intro pairs hlen hpos
      cases pairs with
      | nil => simp at hlen
      | cons p prest =>
        have hc : (0 : ℝ) < c := hpos c (List.mem_cons_self _ _)
        have hrest := ih prest (by simpa using hlen)
          (fun x hx => hpos x (List.mem_cons_of_mem _ hx))
        simp only [scale_pairs, List.zipWith_cons_cons, ratio_list, List.map_cons] at *
        rw [hrest]
        congr 1
        exact mul_div_mul_left p.2 p.1 (ne_of_gt hc)
  refine ⟨hrep, ?_, ?_⟩
  · have h3 : ([1, 1, 1] : List ℝ) = List.replicate 3 1 := rfl
    rw [h3]
    exact hrep 3
  · intro units pairs hlen hpos
    have he := hscale units pairs hlen hpos
    exact ⟨he, by rw [he]⟩

/-- Witness for C8: scaling the single scenario (baseline 1, variant 3) by
the unit factor 2 leaves the ratio list and its geometric mean unchanged. -/
theorem c8_geometric_mean_unit_invariance_witness :
    ratio_list (scale_pairs [2] [((1 : ℝ), 3)]) = ratio_list [((1 : ℝ), 3)] ∧
    geometric_mean (ratio_list (scale_pairs [2] [((1 : ℝ), 3)])) =
      geometric_mean (ratio_list [((1 : ℝ), 3)]) :=
  c8_geometric_mean_unit_invariance.2.2 [2] [((1 : ℝ), 3)] rfl
    (fun c hc => by
      rw [List.mem_singleton] at hc
      rw [hc]
      norm_num)

/-- The three nasty-benchmark scenario keys rendered by its `render_report`
(line 428 of `benchmark_nasty_modes_vs_main.py`). -/
def nasty_scenarios : List String := ["linear", "onto", "rebase_merges"]

/-- The ratio list fed to `geometric_mean` for one variant key in the nasty
`render_report` (lines 430-436): `med : scenario → variant-key → median_s`
models `summary.get(scenario, {}).get(key, {}).get("median_s", 0.0)` (a
missing entry is the default 0.0); a ratio is appended only when both the
baseline and the variant median are strictly positive. -/
noncomputable def nasty_ratios (med : String → String → ℝ) (key : String) : List ℝ :=
  nasty_scenarios.filterMap (fun sc =>
    if 0 < med sc ("main_wrapper") ∧ 0 < med sc key then
      some (med sc key / med sc ("main_wrapper"))
    else none)

/-- The aggregate-comparison table of the nasty `render_report`
(lines 425-437): one row per checked variant key, holding the geometric mean
of that variant's ratio list. -/
noncomputable def nasty_agg_rows (med : String → String → ℝ) : List (String × ℝ) :=
  [("current_wrapper"), ("current_hooks"), ("current_both")].map
    (fun key => (key, geometric_mean (nasty_ratios med key)))

/-- If every scenario is invalid for a variant (non-positive baseline or
variant median), its nasty ratio list is empty. -/
theorem nasty_ratios_eq_nil (med : String → String → ℝ) (key : String)
    (h : ∀ sc ∈ nasty_scenarios, med sc ("main_wrapper") ≤ 0 ∨ med sc key ≤ 0) :
    nasty_ratios med key = [] := by
  rw [nasty_ratios, List.filterMap_eq_nil_iff]
  intro sc hsc
  have hcond : ¬ (0 < med sc ("main_wrapper") ∧ 0 < med sc key) := by
    rcases h sc hsc with h1 | h1
    · exact fun hc => absurd hc.1 (not_lt.mpr h1)
    · exact fun hc => absurd hc.2 (not_lt.mpr h1)
  rw [if_neg hcond]

/-- C10: `geometric_mean` of the empty list is exactly 1.0; consequently a
variant for which no scenario yields a valid ratio (every baseline or
variant median non-positive) still appears in the nasty report's aggregate
table, with ratio 1.0 (0% slowdown), rather than an error or an omitted
row. -/
theorem c10_empty_geometric_mean_one :
    geometric_mean ([] : List ℝ) = 1 ∧
    (∀ (med : String → String → ℝ) (key : String),
      (∀ sc ∈ nasty_scenarios, med sc ("main_wrapper") ≤ 0 ∨ med sc key ≤ 0) →
      nasty_ratios med key = [] ∧ geometric_mean (nasty_ratios med key) = 1) ∧
    (∀ (med : String → String → ℝ),
      ∀ key ∈ [("current_wrapper" : String), ("current_hooks"), ("current_both")],
        (key, geometric_mean (nasty_ratios med key)) ∈ nasty_agg_rows med) := by
  have hempty : geometric_mean ([] : List ℝ) = 1 := by
    rw [geometric_mean, if_pos rfl]
  refine ⟨hempty, ?_, ?_⟩
  · intro med key h
    have hnil : nasty_ratios med key = [] := nasty_ratios_eq_nil med key h
    exact ⟨hnil, by rw [hnil, hempty]⟩
  · intro med key hk
    exact List.mem_map_of_mem _ hk

/-- Witness for C10: with every median zero, the ratio list for
`current_hooks` is empty and its aggregate geometric mean is exactly 1. -/
theorem c10_empty_geometric_mean_one_witness :
    nasty_ratios (fun _ _ => 0) ("current_hooks") = [] ∧
    geometric_mean (nasty_ratios (fun _ _ => 0) ("current_hooks")) = 1 :=
  c10_empty_geometric_mean_one.2.1 (fun _ _ => 0) ("current_hooks")
    (fun _sc _ => Or.inl (le_refl 0))

/-- The scenario keys iterated by `render_report` of
`benchmark_modes_vs_main.py`, in registry order. -/
def modes_scenario_keys : List String := SCENARIOS_desc.map (fun s => s.key)

/-- The ratio-collecting loop of `render_report` in
`benchmark_modes_vs_main.py` (lines 844-849), for one variant key: for EVERY
scenario an entry is appended — `med / base` when the baseline
(`main_wrapper`) median is strictly positive, and the neutral ratio 1.0
otherwise (`med / base if base > 0 else 1.0`). -/
def modes_ratios_loop (med : String → String → ℚ) (key : String) :
    List String → List ℚ
  | [] => []
  | sc :: rest =>
    (if 0 < med sc ("main_wrapper") then med sc key / med sc ("main_wrapper") else 1) ::
      modes_ratios_loop med key rest

/-- The ratio list fed to `geometric_mean` for one variant key in the modes
`render_report`. -/
def modes_ratios (med : String → String → ℚ) (key : String) : List ℚ :=
  modes_ratios_loop med key modes_scenario_keys

/-- The ratio list as claim C4 describes it: exactly the values
`med / base` over scenarios with a strictly positive baseline median, and
nothing for the excluded scenarios (spec-side definition, for the refinement
comparison). -/
def modes_ratios_claimed (med : String → String → ℚ) (key : String) : List ℚ :=
  (modes_scenario_keys.filter (fun sc => decide (0 < med sc ("main_wrapper")))).map
    (fun sc => med sc key / med sc ("main_wrapper"))

/-- Counterexample to C4: with the `commit_human` baseline median 0 and all
other medians 1, the implemented ratio list has one entry per scenario
(eight, including a 1.0 for the excluded scenario) while the claimed list
has only the seven entries of the positive-baseline scenarios. -/
theorem c4_ratio_exclusion_counterexample :
    modes_ratios (fun sc _ => if sc == "commit_human" then 0 else 1) ("current_hooks") ≠
      modes_ratios_claimed (fun sc _ => if sc == "commit_human" then 0 else 1)
        ("current_hooks") := by
  intro h
  have hlen := congrArg List.length h
  have hL : (modes_ratios (fun sc _ => if sc == "commit_human" then 0 else 1)
      ("current_hooks")).length = 8 := rfl
  have hR : (modes_ratios_claimed (fun sc _ => if sc == "commit_human" then 0 else 1)
      ("current_hooks")).length = 7 := by
    simp [modes_ratios_claimed, modes_scenario_keys, SCENARIOS_desc, List.filter_cons]
  rw [hL, hR] at hlen
  exact absurd hlen (by norm_num)

/-- The modes ratio loop appends one entry per scenario. -/
theorem modes_ratios_loop_eq_map (med : String → String → ℚ) (key : String) :
    ∀ scens : List String,
      modes_ratios_loop med key scens =
        scens.map (fun sc =>
          if 0 < med sc ("main_wrapper") then med sc key / med sc ("main_wrapper") else 1) := by
  intro scens
  induction scens with
  | nil => rfl
  | cons sc rest ih => simp [modes_ratios_loop, ih]

/-- C4 (amended): in the nasty report the ratio list contains exactly the
ratios of scenarios with strictly positive baseline and variant medians; in
the modes report every scenario contributes an entry — the ratio when the
baseline median is strictly positive and the neutral 1.0 otherwise — so the
list always has one entry per scenario; when every baseline median is
strictly positive the modes list coincides with the claimed one. -/
theorem c4_ratio_exclusion_amended :
    (∀ (med : String → String → ℝ) (key : String) (r : ℝ),
      r ∈ nasty_ratios med key ↔
        ∃ sc ∈ nasty_scenarios, 0 < med sc ("main_wrapper") ∧ 0 < med sc key ∧
          med sc key / med sc ("main_wrapper") = r) ∧
    (∀ (med : String → String → ℚ) (key : String),
      modes_ratios med key = modes_scenario_keys.map (fun sc =>
        if 0 < med sc ("main_wrapper") then med sc key / med sc ("main_wrapper") else 1)) ∧
    (∀ (med : String → String → ℚ) (key : String),
      (modes_ratios med key).length = modes_scenario_keys.length) ∧
    (∀ (med : String → String → ℚ) (key : String),
      (∀ sc ∈ modes_scenario_keys, 0 < med sc ("main_wrapper")) →
      modes_ratios med key = modes_ratios_claimed med key) := by
  have hmap : ∀ (med : String → String → ℚ) (key : String),
      modes_ratios med key = modes_scenario_keys.map (fun sc =>
        if 0 < med sc ("main_wrapper") then med sc key / med sc ("main_wrapper") else 1) :=
    fun med key => modes_ratios_loop_eq_map med key modes_scenario_keys
  refine ⟨?_, hmap, ?_, ?_⟩
  · intro med key r
    rw [nasty_ratios, List.mem_filterMap]
    constructor
    · rintro ⟨sc, hsc, hf⟩
      by_cases hc : 0 < med sc ("main_wrapper") ∧ 0 < med sc key
      · rw [if_pos hc] at hf
        exact ⟨sc, hsc, hc.1, hc.2, Option.some.injEq _ _ ▸ hf⟩
      · rw [if_neg hc] at hf
        exact Option.noConfusion hf
    · rintro ⟨sc, hsc, h1, h2, hr⟩
      refine ⟨sc, hsc, ?_⟩
      rw [if_pos ⟨h1, h2⟩, hr]
  · intro med key
    rw [hmap med key, List.length_map]
  · intro med key hpos
    rw [hmap med key, modes_ratios_claimed]
    have hfil : modes_scenario_keys.filter
        (fun sc => decide (0 < med sc ("main_wrapper"))) = modes_scenario_keys := by
      rw [List.filter_eq_self]
      intro sc hsc
      simpa using hpos sc hsc
    rw [hfil]
    apply List.map_congr_left
    intro sc hsc
    rw [if_pos (hpos sc hsc)]

/-- Witness for C4 (amended): with every median 1, the modes ratio list
matches the claimed list. -/
theorem c4_ratio_exclusion_amended_witness :
    modes_ratios (fun _ _ => 1) ("current_hooks") =
      modes_ratios_claimed (fun _ _ => 1) ("current_hooks") :=
  c4_ratio_exclusion_amended.2.2.2 (fun _ _ => 1) ("current_hooks")
    (fun _sc _ => by norm_num)

/-- The fixed managed hook-name set `MANAGED_HOOK_NAMES`
(lines 36-46 of `benchmark_modes_vs_main.py`). -/
def MANAGED_HOOK_NAMES : List String :=
  ["pre-commit", "prepare-commit-msg", "post-commit", "pre-rebase",
   "post-checkout", "post-merge", "pre-push", "post-rewrite",
   "reference-transaction"]

/-- A filesystem path as `pathlib.Path` distinguishes it: absolute or
relative, as a list of components (`.resolve()` is modelled as identity on
absolute paths and as anchoring at the repo directory for relative ones). -/
inductive PyPath where
  | abs (components : List String)
  | rel (components : List String)
deriving DecidableEq, Repr

/-- Resolution of a configured hooks path against the repository directory
(lines 264-268): a relative path is anchored at the repo directory. -/
def resolve_in (repo : List String) : PyPath → List String
  | PyPath.abs cs => cs
  | PyPath.rel cs => repo ++ cs

/-- What `assert_repo_local_hooks` observes about a repository: the stripped
output of `git config --local --get core.hooksPath` (`none` models an empty
value), whether the managed hooks directory exists, and that directory's
entry names. -/
structure HooksObservation where
  hooks_path : Option PyPath
  hooks_dir_exists : Bool
  entries : List String
deriving DecidableEq, Repr

/-- `repo_dir / ".git" / "ai" / "hooks"` (line 257). -/
def expected_hooks_dir (repo : List String) : List String :=
  repo ++ [".git", "ai", "hooks"]

/-- `entry.name.startswith(".")`: the entry name's first character is a
dot. -/
def starts_with_dot (e : String) : Bool :=
  match e.data with
  | [] => false
  | c :: _ => c == ('.' : Char)

/-- The installed hook entries considered by the assertion (lines 279-283):
directory entries whose name does not start with a dot. -/
def installed_hooks (entries : List String) : List String :=
  entries.filter (fun e => !(starts_with_dot e))

/-- `VariantRunner.assert_repo_local_hooks` (lines 256-293 of
`benchmark_modes_vs_main.py`): raise `BenchmarkError` when the configured
hooks path is empty, resolves elsewhere than the repo's private managed
hooks directory, when that directory is missing, or when the set of
installed (non-dot) entries differs from `MANAGED_HOOK_NAMES` in either
direction. -/
def assert_repo_local_hooks (repo : List String) (obs : HooksObservation) :
    Except String Unit :=
  obs.hooks_path.elim
    (Except.error ("Expected local core.hooksPath to be configured, found empty"))
    (fun p =>
      if resolve_in repo p ≠ expected_hooks_dir repo then
        Except.error ("Expected repo-local hooks path")
      else if obs.hooks_dir_exists = false then
        Except.error ("Managed hooks dir missing")
      else if MANAGED_HOOK_NAMES.filter
            (fun h => !((installed_hooks obs.entries).contains h)) ≠ [] ∨
          (installed_hooks obs.entries).filter
            (fun e => !(MANAGED_HOOK_NAMES.contains e)) ≠ [] then
        Except.error ("Unexpected managed hook surface in repo-local hooks dir")
      else Except.ok ())

/-- The hook verification as invoked by `init_repo` (lines 327-329) and by
the per-repetition loop of `main()` (lines 1074-1076): it runs exactly for
the `hooks` and `both` modes. -/
def mode_hook_check (mode : String) (repo : List String) (obs : HooksObservation) :
    Except String Unit :=
  if mode == "hooks" || mode == "both" then assert_repo_local_hooks repo obs
  else Except.ok ()

/-- C9: for variants in mode `hooks` or `both` the runner performs the hooks
assertion (after setup and after each per-repetition copy); the assertion
succeeds iff the configured hooks path is present and resolves to the
repository's private managed-hooks directory, the directory exists, and the
installed (non-dot) hook entries are exactly the fixed managed hook-name
set; every other observation produces a fatal `BenchmarkError`, never a
soft warning. -/
theorem c9_hooks_assertion :
    (∀ (mode : String) (repo : List String) (obs : HooksObservation),
      (mode = "hooks" ∨ mode = "both") →
        mode_hook_check mode repo obs = assert_repo_local_hooks repo obs) ∧
    (∀ (repo : List String) (obs : HooksObservation),
      assert_repo_local_hooks repo obs = Except.ok () ↔
        ((∃ p, obs.hooks_path = some p ∧ resolve_in repo p = expected_hooks_dir repo) ∧
          obs.hooks_dir_exists = true ∧
          (∀ h ∈ MANAGED_HOOK_NAMES, h ∈ installed_hooks obs.entries) ∧
          (∀ e ∈ installed_hooks obs.entries, e ∈ MANAGED_HOOK_NAMES))) ∧
    (∀ (repo : List String) (obs : HooksObservation),
      assert_repo_local_hooks repo obs ≠ Except.ok () →
        ∃ msg, assert_repo_local_hooks repo obs = Except.error msg) := by
  refine ⟨?_, ?_, ?_⟩
  · intro mode repo obs hm
    rcases hm with rfl | rfl <;> rfl
  · intro repo obs
    cases hp : obs.hooks_path with
    | none =>
      simp only [assert_repo_local_hooks, hp, Option.elim_none]
      constructor
      · intro h; exact Except.noConfusion h
      · rintro ⟨⟨p, hsome, _⟩, _⟩; exact Option.noConfusion hsome
    | some p =>
      simp only [assert_repo_local_hooks, hp, Option.elim_some]
      by_cases hres : resolve_in repo p ≠ expected_hooks_dir repo
      · rw [if_pos hres]
        constructor
        · intro h; exact Except.noConfusion h
        · rintro ⟨⟨q, hsome, hq⟩, _⟩
          rw [Option.some.injEq] at hsome
          exact absurd (hsome ▸ hq) hres
      · rw [if_neg hres]
        push_neg at hres
        by_cases hdir : obs.hooks_dir_exists = false
        · rw [if_pos hdir]
          constructor
          · intro h; exact Except.noConfusion h
          · rintro ⟨_, hdir', _⟩
            rw [hdir'] at hdir
            exact Bool.noConfusion hdir
        · rw [if_neg hdir]
          have hdir' : obs.hooks_dir_exists = true := by
            cases h : obs.hooks_dir_exists
            · exact absurd h hdir
            · rfl
          by_cases hset : MANAGED_HOOK_NAMES.filter
                (fun h => !((installed_hooks obs.entries).contains h)) ≠ [] ∨
              (installed_hooks obs.entries).filter
                (fun e => !(MANAGED_HOOK_NAMES.contains e)) ≠ []
          · rw [if_pos hset]
            constructor
            · intro h; exact Except.noConfusion h
            · rintro ⟨_, _, hsub, hsup⟩
              exfalso
              rcases hset with hmiss | hext
              · apply hmiss
                rw [List.filter_eq_nil_iff]
                intro h hh
                simp [hsub h hh]
              · apply hext
                rw [List.filter_eq_nil_iff]
                intro e he
                simp [hsup e he]
          · rw [if_neg hset]
            push_neg at hset
            constructor
            · intro _
              refine ⟨⟨p, rfl, hres⟩, hdir', ?_, ?_⟩
              · intro h hh
                by_contra hmem
                have : h ∈ MANAGED_HOOK_NAMES.filter
                    (fun x => !((installed_hooks obs.entries).contains x)) := by
                  rw [List.mem_filter]
                  refine ⟨hh, ?_⟩
                  simp [hmem]
                rw [hset.1] at this
                exact absurd this (List.not_mem_nil _)
              · intro e he
                by_contra hmem
                have : e ∈ (installed_hooks obs.entries).filter
                    (fun x => !(MANAGED_HOOK_NAMES.contains x)) := by
                  rw [List.mem_filter]
                  refine ⟨he, ?_⟩
                  simp [hmem]
                rw [hset.2] at this
                exact absurd this (List.not_mem_nil _)
            · intro _; rfl
  · intro repo obs h
    cases hres : assert_repo_local_hooks repo obs with
    | ok u => cases u; exact absurd hres h
    | error msg => exact ⟨msg, rfl⟩

/-- A fully conforming observation: hooks path configured relative, managed
directory present, exactly the managed hook entries installed. -/
def good_hooks_obs : HooksObservation :=
  { hooks_path := some (PyPath.rel [".git", "ai", "hooks"])
    hooks_dir_exists := true
    entries := MANAGED_HOOK_NAMES }

/-- Witness for C9: in `hooks` mode the check runs the assertion, and on the
conforming observation the assertion succeeds. -/
theorem c9_hooks_assertion_witness :
    mode_hook_check ("hooks") ["repo"] good_hooks_obs =
      assert_repo_local_hooks ["repo"] good_hooks_obs ∧
    assert_repo_local_hooks ["repo"] good_hooks_obs = Except.ok () :=
  ⟨c9_hooks_assertion.1 ("hooks") ["repo"] good_hooks_obs (Or.inl rfl),
   (c9_hooks_assertion.2.1 ["repo"] good_hooks_obs).mpr
     ⟨⟨PyPath.rel [".git", "ai", "hooks"], rfl, rfl⟩, rfl, by decide, by decide⟩⟩
